import Mathlib

/-!
Verification of the resilient LLM generation pipeline of the
english-grammar-netlify repository (module `src/services/geminiService.ts`).

The repository contains several revisions of the same pipeline module.
Following the design note in the specification ("treat the most
defensive/most complete variant as the reference behavior"), stage
definitions are embedded from the most complete revision
(src/unnamed/part_001, which carries explicit timeouts, explicit retry
budgets and empty-content checks); the retry executor, the backoff delay
and the string helpers are shared verbatim across all revisions and are
embedded once.

JavaScript strings are modelled as `List Char` / `String`; the JS regular
expressions used by the module (all of them fixed finite patterns) are
embedded as explicit structural scanners with the same matching semantics.
-/

/-- The JavaScript whitespace class used by `\s`, `String.prototype.trim`
and the `/```html\s*/` fence patterns: space, tab, line terminators,
form/vertical feed, NBSP, Ogham space, the U+2000..U+200A range,
LS/PS, NNBSP, MMSP, ideographic space and BOM. -/
def isJsWs (c : Char) : Bool :=
  c = ' ' || c = '\t' || c = '\n' || c = '\r' || c = '\x0b' || c = '\x0c' ||
  c = ' ' || c = ' ' || (0x2000 ≤ c.val && c.val ≤ 0x200a) ||
  c = ' ' || c = ' ' || c = ' ' || c = ' ' ||
  c = '　' || c = '﻿'

/-- JS line terminators (the characters `.` does not match in a regex). -/
def isLineTerm (c : Char) : Bool :=
  c = '\n' || c = '\r' || c = ' ' || c = ' '

/-- `leadsWith pat l` holds when `pat` is an initial segment of `l`. -/
def leadsWith : List Char → List Char → Bool
  | [], _ => true
  | _ :: _, [] => false
  | p :: ps, c :: cs => p = c && leadsWith ps cs

/-- `hasSub pat l` holds when `pat` occurs contiguously inside `l`
(the semantics of JS `String.prototype.includes`). -/
def hasSub (pat : List Char) : List Char → Bool
  | [] => leadsWith pat []
  | l@(_ :: rest) => leadsWith pat l || hasSub pat rest

/-- JS `trim()` on a character list: drop the JS whitespace class from
both ends. -/
def jsTrimL (l : List Char) : List Char :=
  ((l.dropWhile isJsWs).reverse.dropWhile isJsWs).reverse

/-- JS `trim()` on strings. -/
def jsTrim (s : String) : String :=
  String.mk (jsTrimL s.data)

/-- Case-insensitive test that four characters spell `html`
(the `/i` flag of the fence regexes). -/
def htmlCi (h t m l : Char) : Bool :=
  (h = 'h' || h = 'H') && (t = 't' || t = 'T') &&
  (m = 'm' || m = 'M') && (l = 'l' || l = 'L')

/-- Head test: does a backtick fence followed by `html`
(case-insensitive) start at this position? -/
def tickHtmlAt : List Char → Bool
  | '\x60' :: '\x60' :: '\x60' :: h :: t :: m :: k :: _ => htmlCi h t m k
  | _ => false

/-- One global pass of `.replace(/```html\s*/gi, "")` as a per-character
state machine: `pend` counts characters of a recognised match still to be
consumed, `skip` records that the scanner is inside the greedy `\s*` tail
of a match. Scanning resumes after the consumed whitespace run, exactly
like the JS global regex replace. -/
def tickHtmlGo : List Char → Nat → Bool → List Char
  | [], _, _ => []
  | _ :: rest, pend + 1, _ => tickHtmlGo rest pend true
  | c :: rest, 0, skip =>
    if tickHtmlAt (c :: rest) then tickHtmlGo rest 6 true
    else if skip && isJsWs c then tickHtmlGo rest 0 true
    else c :: tickHtmlGo rest 0 false

/-- Head test: do three consecutive backticks start here? -/
def tick3At : List Char → Bool
  | '\x60' :: '\x60' :: '\x60' :: _ => true
  | _ => false

/-- One global pass of `.replace(/```/g, "")` as a per-character state
machine (`pend` counts characters of a recognised fence still to be
consumed). -/
def removeTicksGo : List Char → Nat → List Char
  | [], _ => []
  | _ :: rest, pend + 1 => removeTicksGo rest pend
  | c :: rest, 0 =>
    if tick3At (c :: rest) then removeTicksGo rest 2 else c :: removeTicksGo rest 0

/-- `.replace(/```/g, "")`. -/
def removeTicks (l : List Char) : List Char :=
  removeTicksGo l 0

/-- Head test for a tilde fence followed by `html` (case-insensitive). -/
def tildeHtmlAt : List Char → Bool
  | '~' :: '~' :: '~' :: h :: t :: m :: k :: _ => htmlCi h t m k
  | _ => false

/-- One global pass of `.replace(/~~~html\s*/gi, "")` (tilde fences),
same state machine as `tickHtmlGo`. -/
def tildeHtmlGo : List Char → Nat → Bool → List Char
  | [], _, _ => []
  | _ :: rest, pend + 1, _ => tildeHtmlGo rest pend true
  | c :: rest, 0, skip =>
    if tildeHtmlAt (c :: rest) then tildeHtmlGo rest 6 true
    else if skip && isJsWs c then tildeHtmlGo rest 0 true
    else c :: tildeHtmlGo rest 0 false

/-- Head test: do three consecutive tildes start here? -/
def tilde3At : List Char → Bool
  | '~' :: '~' :: '~' :: _ => true
  | _ => false

/-- One global pass of `.replace(/~~~/g, "")`, same state machine as
`removeTicksGo`. -/
def removeTildesGo : List Char → Nat → List Char
  | [], _ => []
  | _ :: rest, pend + 1 => removeTildesGo rest pend
  | c :: rest, 0 =>
    if tilde3At (c :: rest) then removeTildesGo rest 2 else c :: removeTildesGo rest 0

/-- `.replace(/~~~/g, "")`. -/
def removeTildes (l : List Char) : List Char :=
  removeTildesGo l 0

/-- `stripCodeFences` from src/unnamed/part_001 (identical in
src/src/services/geminiService.ts): remove ```` ```html ```` fences, then
bare ```` ``` ````, then `~~~html`, then bare `~~~`, then trim. -/
def stripCodeFences (s : String) : String :=
  String.mk
    (jsTrimL (removeTildes (tildeHtmlGo (removeTicks (tickHtmlGo s.data 0 false)) 0 false)))

/-- Tail scanner for the `/\*\*.+\*\*/` bold-span regex: having committed
to an opening `**`, look for a closing `**` with at least one interleaving
character, none of them a line terminator. The `Bool` records whether at
least one middle character has been consumed (regex backtracking lets a
`*` serve as a middle character, hence the fall-through). -/
def boldTail : List Char → Bool → Bool
  | [], _ => false
  | c :: rest, seen =>
    if c = '*' && (match rest with | d :: _ => d = '*' | [] => false) && seen then true
    else if isLineTerm c then false
    else boldTail rest true

/-- `/\*\*.+\*\*/.test(t)`: some position opens a `**` span that closes
with `**` after at least one non-line-terminator character. -/
def hasBold : List Char → Bool
  | [] => false
  | c :: rest =>
    (c = '*' &&
      (match rest with
       | d :: rest2 => d = '*' && boldTail rest2 false
       | [] => false))
    || hasBold rest

/-- After one to six `#` at a line start, `/^#{1,6}\s/m` needs a JS
whitespace character; a seventh `#` kills every backtracking choice. -/
def headCont : List Char → Nat → Bool
  | '#' :: rest, n => if n < 6 then headCont rest (n + 1) else false
  | c :: _, _ => isJsWs c
  | [], _ => false

/-- Head test for an ATX heading at the current position. -/
def headAt : List Char → Bool
  | '#' :: rest => headCont rest 1
  | _ => false

/-- `/^#{1,6}\s/m.test(t)`: scan every position, tracking whether it is a
line start (string start or right after a line terminator). -/
def headingScan : List Char → Bool → Bool
  | [], _ => false
  | l@(c :: rest), atStart =>
    (atStart && headAt l) || headingScan rest (isLineTerm c)

/-- `/^\s*[-*+]\s+/m.test(t)`: a bullet marker reachable from some line
start through whitespace only, followed by at least one JS whitespace
character. The `Bool` records reachability of the current position from a
line start via whitespace. -/
def bulletScan : List Char → Bool → Bool
  | [], _ => false
  | c :: rest, ws =>
    (ws && (c = '-' || c = '*' || c = '+') &&
      (match rest with | d :: _ => isJsWs d | [] => false))
    || bulletScan rest (if isLineTerm c then true else if isJsWs c then ws else false)

/-- `looksLikeMarkdown` from src/unnamed/part_001 (identical in
src/src/services/geminiService.ts): triple-backtick or triple-tilde fence
anywhere, a bold span, an ATX heading at a line start, or a leading
bullet marker. -/
def looksLikeMarkdown (s : String) : Bool :=
  hasSub ['\x60', '\x60', '\x60'] s.data || hasSub ['~', '~', '~'] s.data ||
  hasBold s.data || headingScan s.data true || bulletScan s.data true

/-! ## Upstream JSON replies and content extraction -/

/-- JSON values as delivered by `res.json()` / `JSON.parse`. -/
inductive Json where
  | null
  | bool (b : Bool)
  | num (n : Int)
  | str (s : String)
  | arr (elems : List Json)
  | obj (fields : List (String × Json))

/-- Property lookup on a field list (first binding wins). -/
def lookupField : List (String × Json) → String → Option Json
  | [], _ => none
  | (k, v) :: rest, key => if k = key then some v else lookupField rest key

/-- JS optional property access `x?.k`: `none` models `undefined`
(missing field, or access on a non-object / null). -/
def getField : Json → String → Option Json
  | .obj fs, key => lookupField fs key
  | _, _ => none

/-- JS optional index access `x?.[0]`: first array element, property
`"0"` of an object, first character of a string, `undefined` otherwise. -/
def idx0 : Json → Option Json
  | .arr (x :: _) => some x
  | .arr [] => none
  | .obj fs => lookupField fs "0"
  | .str s =>
    match s.data with
    | c :: _ => some (.str (String.mk [c]))
    | [] => none
  | _ => none

/-- The optional chain `json?.choices?.[0]?.message?.content`. -/
def pickChain (j : Json) : Option Json :=
  match getField j "choices" with
  | none => none
  | some choices =>
    match idx0 choices with
    | none => none
    | some first =>
      match getField first "message" with
      | none => none
      | some msg => getField msg "content"

/-- `pickContent` from src/unnamed/part_001 (also `pickContent` in
src/src/services/geminiService.ts and `pickText` in src/unnamed/part_000):
`json?.choices?.[0]?.message?.content ?? ""` — the `??` default turns a
missing link or a `null` content into the empty string. -/
def pickContent (j : Json) : Json :=
  match pickChain j with
  | none => .str ""
  | some .null => .str ""
  | some v => v

/-- A well-formed chat-completions reply whose first choice carries the
given content string. -/
def chatJson (content : String) : Json :=
  .obj [("choices", .arr [.obj [("message", .obj [("content", .str content)])]])]

/-! ## Failure taxonomy and retry executor -/

/-- The failure kinds observable inside the pipeline (§7 of the spec):
upstream non-2xx, call timeout, empty content, missing configuration,
plus the runtime `TypeError` a stage raises when it calls a string method
on a truthy non-string content value. -/
inductive Err where
  | upstream (status : Nat) (detail : String)
  | timeout (ms : Nat)
  | emptyContent (msg : String)
  | config (name : String)
  | typeErr
  deriving DecidableEq, Repr

/-- The attempts `i, i+1, ..., i+fuel` of a retried operation, modelling
the loop body of `withRetry`: return the first success, otherwise the
error of the last attempt. The operation is indexed by the attempt
number, which stands for the state of the outside world at that attempt. -/
def retryFrom {α : Type} (op : Nat → Except Err α) : Nat → Nat → Except Err α
  | i, 0 => op i
  | i, fuel + 1 =>
    match op i with
    | .ok a => .ok a
    | .error _ => retryFrom op (i + 1) fuel

/-- `withRetry` from src/src/services/geminiService.ts and
src/unnamed/part_001 (and `callWithRetry` from src/unnamed/part_000,
which differs only in its default budget and backoff constants):
one initial attempt plus up to `maxRetry` re-attempts; on exhaustion the
last observed failure is rethrown unchanged. -/
def withRetry {α : Type} (op : Nat → Except Err α) (maxRetry : Nat) : Except Err α :=
  retryFrom op 0 maxRetry

/-- The argument of `sleep` between attempts of `withRetry`
(src/src/services/geminiService.ts and src/unnamed/part_001):
`Math.min(4000, 600 * Math.pow(2, i))`. -/
def retryDelayMs (i : Nat) : Nat :=
  min 4000 (600 * 2 ^ i)

/-- The argument of `delay` between attempts of `callWithRetry`
(src/unnamed/part_000): `Math.min(8000, 500 * Math.pow(2, attempt))`. -/
def callRetryDelayMs (i : Nat) : Nat :=
  min 8000 (500 * 2 ^ i)

/-! ## Message builder -/

/-- `options.image` of `SolveOptions`. -/
structure ImageOpt where
  base64 : String
  mimeType : String
  deriving DecidableEq, Repr

/-- `SolveOptions`: optional image and optional supplementary text. -/
structure SolveOptions where
  image : Option ImageOpt
  text : Option String
  deriving DecidableEq, Repr

/-- One content part of a chat message: a text span or an image URL. -/
inductive ContentPart where
  | text (t : String)
  | imageUrl (url : String)
  deriving DecidableEq, Repr

/-- A role-tagged chat message. -/
structure ChatMessage where
  role : String
  content : List ContentPart
  deriving DecidableEq, Repr

/-- The segment of `s` between its first and second comma
(JS `s.split(",")[1]` when `s` contains a comma). -/
def afterFirstComma (s : String) : String :=
  String.mk (((s.data.dropWhile (· ≠ ',')).drop 1).takeWhile (· ≠ ','))

/-- `toDataUrl` from src/unnamed/part_001 (identical in
src/src/services/geminiService.ts): strip any pre-existing data-URI
prefix (everything up to the first comma) and reassemble
`data:<mime>;base64,<body>`. -/
def toDataUrl (base64 mime : String) : String :=
  "data:" ++ mime ++ ";base64," ++
    (if base64.data.any (· = ',') then afterFirstComma base64 else base64)

/-- `buildUserMessage` from src/unnamed/part_001 (identical in
src/src/services/geminiService.ts): one user message; the instruction
text first; an image part when both `image.base64` and `image.mimeType`
are truthy (non-empty); a labelled supplementary-text part when
`options.text` is present and its trim is truthy (non-blank). -/
def buildUserMessage (prompt : String) (options : SolveOptions) : List ChatMessage :=
  let parts : List ContentPart := [.text prompt]
  let parts : List ContentPart :=
    match options.image with
    | some img =>
      if img.base64 ≠ "" ∧ img.mimeType ≠ "" then
        parts ++ [.imageUrl (toDataUrl img.base64 img.mimeType)]
      else parts
    | none => parts
  let parts : List ContentPart :=
    match options.text with
    | some t =>
      if jsTrim t ≠ "" then parts ++ [.text ("\n\n【题目文本】\n" ++ jsTrim t)]
      else parts
    | none => parts
  [{ role := "user", content := parts }]

/-! ## HTML-to-plain-text helpers (speech stage and drills context) -/

/-- One global pass of `.replace(/<[^>]*>/g, " ")` as a state machine:
outside a tag characters pass through; a `<` starts buffering; a `>`
closes the tag, which is replaced by one space; a tag never closed is
replayed verbatim at the end (the regex needs the closing `>`). -/
def stripTagsGo : List Char → Option (List Char) → List Char
  | [], none => []
  | [], some buf => buf.reverse
  | c :: rest, none =>
    if c = '<' then stripTagsGo rest (some [c]) else c :: stripTagsGo rest none
  | c :: rest, some buf =>
    if c = '>' then ' ' :: stripTagsGo rest none else stripTagsGo rest (some (c :: buf))

/-- `.replace(/<[^>]*>/g, " ")`. -/
def stripTagsL (l : List Char) : List Char :=
  stripTagsGo l none

/-- One global pass of `.replace(/\s+/g, " ")`: collapse every maximal
run of JS whitespace to one space. The `Bool` records whether the
previous character belonged to a run already collapsed. -/
def collapseGo : List Char → Bool → List Char
  | [], _ => []
  | c :: rest, prevWs =>
    if isJsWs c then
      if prevWs then collapseGo rest true else ' ' :: collapseGo rest true
    else c :: collapseGo rest false

/-- `.replace(/\s+/g, " ")`. -/
def collapseWsL (l : List Char) : List Char :=
  collapseGo l false

/-- Head test for `<script` (case-insensitive letters). -/
def openScriptAt : List Char → Bool
  | '<' :: s :: c :: r :: i :: p :: t :: _ =>
    (s = 's' || s = 'S') && (c = 'c' || c = 'C') && (r = 'r' || r = 'R') &&
    (i = 'i' || i = 'I') && (p = 'p' || p = 'P') && (t = 't' || t = 'T')
  | _ => false

/-- Head test for `</script>` (case-insensitive letters). -/
def closeScriptAt : List Char → Bool
  | '<' :: '/' :: s :: c :: r :: i :: p :: t :: '>' :: _ =>
    (s = 's' || s = 'S') && (c = 'c' || c = 'C') && (r = 'r' || r = 'R') &&
    (i = 'i' || i = 'I') && (p = 'p' || p = 'P') && (t = 't' || t = 'T')
  | _ => false

/-- One global pass of `.replace(/<script[\s\S]*?<\/script>/gi, " ")`:
lazy matching from an opening `<script` to the first `</script>`; the
whole block becomes one space; an opening tag never closed is replayed
verbatim (the lazy regex requires the closing tag). `pend` counts
characters of a recognised closing tag still to be consumed. -/
def scriptGo : List Char → Option (List Char) → Nat → List Char
  | [], none, _ => []
  | [], some buf, _ => buf.reverse
  | _ :: rest, mode, pend + 1 => scriptGo rest mode pend
  | c :: rest, none, 0 =>
    if openScriptAt (c :: rest) then scriptGo rest (some [c]) 0
    else c :: scriptGo rest none 0
  | c :: rest, some buf, 0 =>
    if closeScriptAt (c :: rest) then ' ' :: scriptGo rest none 8
    else scriptGo rest (some (c :: buf)) 0

/-- `.replace(/<script[\s\S]*?<\/script>/gi, " ")`. -/
def stripScriptL (l : List Char) : List Char :=
  scriptGo l none 0

/-- Head test for `<style` (case-insensitive letters). -/
def openStyleAt : List Char → Bool
  | '<' :: s :: t :: y :: l :: e :: _ =>
    (s = 's' || s = 'S') && (t = 't' || t = 'T') && (y = 'y' || y = 'Y') &&
    (l = 'l' || l = 'L') && (e = 'e' || e = 'E')
  | _ => false

/-- Head test for `</style>` (case-insensitive letters). -/
def closeStyleAt : List Char → Bool
  | '<' :: '/' :: s :: t :: y :: l :: e :: '>' :: _ =>
    (s = 's' || s = 'S') && (t = 't' || t = 'T') && (y = 'y' || y = 'Y') &&
    (l = 'l' || l = 'L') && (e = 'e' || e = 'E')
  | _ => false

/-- One global pass of `.replace(/<style[\s\S]*?<\/style>/gi, " ")`,
same state machine as `scriptGo`. -/
def styleGo : List Char → Option (List Char) → Nat → List Char
  | [], none, _ => []
  | [], some buf, _ => buf.reverse
  | _ :: rest, mode, pend + 1 => styleGo rest mode pend
  | c :: rest, none, 0 =>
    if openStyleAt (c :: rest) then styleGo rest (some [c]) 0
    else c :: styleGo rest none 0
  | c :: rest, some buf, 0 =>
    if closeStyleAt (c :: rest) then ' ' :: styleGo rest none 7
    else styleGo rest (some (c :: buf)) 0

/-- `.replace(/<style[\s\S]*?<\/style>/gi, " ")`. -/
def stripStyleL (l : List Char) : List Char :=
  styleGo l none 0

/-- `summarizeContextForDrills` from src/unnamed/part_001: drop script
and style blocks, strip the remaining tags, collapse whitespace, trim,
and cap at 900 characters. -/
def summarizeContextForDrills (solutionHtml : String) : String :=
  String.mk
    (List.take 900
      (jsTrimL (collapseWsL (stripTagsL (stripStyleL (stripScriptL solutionHtml.data))))))

/-! ## Pipeline stages (embedded from src/unnamed/part_001, the most
complete revision, which the spec's design notes designate as the
reference behavior) -/

/-- JS truthiness of a JSON value. -/
def jsTruthy : Json → Bool
  | .null => false
  | .bool b => b
  | .num n => n ≠ 0
  | .str s => s ≠ ""
  | _ => true

/-- The value a stage obtains from `pickContent(json)` once a string
method is applied to it: `(x || "")` coerces a falsy value to the empty
string, while a truthy non-string raises a runtime `TypeError`. -/
def jsStringOf : Json → Except Err String
  | .str s => .ok s
  | .null => .ok ""
  | .bool false => .ok ""
  | .num 0 => .ok ""
  | _ => .error .typeErr

/-- One logical chat-completions request: the payload fields of the call
site together with the retry budget (`withRetry`'s second argument) used
to execute it. Temperatures are scaled by 100 to stay in `Nat`
(`25` stands for `0.25`). -/
structure Req where
  temperature : Nat
  maxTokens : Nat
  timeoutMs : Nat
  budget : Nat
  messages : List ChatMessage
  deriving DecidableEq, Repr

/-- The environment a pipeline invocation runs against: the outcome of
each logical request at each retry attempt (the attempt index stands for
the state of the network at that attempt). -/
def Env : Type :=
  Req → Nat → Except Err Json

/-- One attempt of a retried request: perform the transport call,
extract the content, and apply the stage's finishing step (trimming or
fence-stripping plus empty check). -/
def reqAttempt (env : Env) (req : Req) (finish : String → Except Err String) (i : Nat) :
    Except Err String :=
  match env req i with
  | .error e => .error e
  | .ok j =>
    match jsStringOf (pickContent j) with
    | .error e => .error e
    | .ok s => finish s

/-- Execute one logical request through the retry executor. -/
def runReq (env : Env) (req : Req) (finish : String → Except Err String) : Except Err String :=
  withRetry (reqAttempt env req finish) req.budget

/-- The chat-completions endpoint path used by every text stage. -/
def chatEndpointPath : String :=
  "/chat/completions"

/-- The distinct synthesis endpoint path used by the speech stage. -/
def speechEndpointPath : String :=
  "/audio/speech"

/-- Verify-stage instruction text. -/
def verifyPrompt : String :=
  "你是“小学英语题干质检老师”。请核对/修复题干：\n1) 若有乱码、缺字、重复、分页断句，请修复为一份“可做题的完整题目”。\n2) 只输出【修复后的题目正文】，不要解释、不要标题、不要编号。\n3) 尽量保留原题大小写、标点、换行。"

/-- The verify-stage request: temperature 0.2, max_tokens 700, 25 s
timeout, default retry budget 2. -/
def verifyReq (options : SolveOptions) : Req :=
  { temperature := 20, maxTokens := 700, timeoutMs := 25000, budget := 2,
    messages := buildUserMessage verifyPrompt options }

/-- Finishing step of the verify stage: return the trimmed content,
raising a distinct empty-content failure when the trim is empty
(`if (!out) throw`). -/
def verifyFinish (s : String) : Except Err String :=
  if jsTrim s = "" then .error (.emptyContent "题干核对返回为空（content 为空）。")
  else .ok (jsTrim s)

/-- `verifyProblem` from src/unnamed/part_001: one retried call; the
trimmed content is returned, and an empty trimmed content is raised as a
distinct empty-content failure instead of being returned. -/
def verifyProblem (env : Env) (options : SolveOptions) : Except Err String :=
  runReq env (verifyReq options) verifyFinish

/-- Solve-stage base instruction text. -/
def solveBasePrompt : String :=
  "你是“资深英语私教”，面向五六年级学生讲解。\n\n【最重要硬规则】\n- 只输出“可直接渲染的 HTML 片段”，必须以 <div 开头，以 </div> 结尾。\n- 严禁输出 Markdown：不允许出现 **、#、-、>、```、~~~ 等符号。\n- 需要强调用 <strong>；标题用 <h3>；列表用 <ul><li>。\n- 不要输出解释性前缀（如“下面是…”），不要输出代码块围栏。\n\n【样式 class 必须使用】\ntags-container / level-tag grammar\nhighlight-legend / legend-item / legend-dot subject|verb|tense|object|keyword\noriginal-problem / reading-tips / grammar-analysis / final-answer\nsubject-highlight / verb-highlight / tense-highlight / object-highlight / keyword-highlight\n\n【关键修正：填空/选择的“空位”不要高亮】\n- 题目中的空（如 ______ / ____ / ( ) ）必须保持为纯下划线/括号文本，不要用任何 <span class=\"...\"> 包裹。\n- 选项 A/B/C/D 的字母、以及空格占位不要高亮。\n- 只高亮“题面里真实出现的词”（如 It / rains / often / in / summer / Does 等）。\n\n【输出结构必须包含】\n1) tags-container:考点标签（2-3个）\n2) highlight-legend:图例\n3) original-problem:原句+题目要求+填空（空不高亮）\n4) reading-tips:2-3 条，表达更像五六年级（规则+依据+易错点）\n5) grammar-analysis:语气不幼稚，讲“规则→例句→常见坑”\n6) final-answer:简洁答案\n\n【题目】（图片优先，其次文字）："

/-- Solve-stage corrective instruction, embedding the tainted first
output. -/
def solveRepairPrompt (firstTry : String) : String :=
  "你的输出含 Markdown 痕迹（如 **、#、-、``` 等）。请改写成【纯 HTML 片段】：\n- 必须 <div 开头 </div> 结尾\n- 严禁任何 Markdown 符号\n- 保持结构（tags-container、highlight-legend、original-problem、reading-tips、grammar-analysis、final-answer）\n- “空位”不要高亮（下划线保持纯文本）\n【待改写内容】：\n" ++ firstTry

/-- The first solve-stage request: temperature 0.25, max_tokens 1700,
30 s timeout, explicit retry budget 2. -/
def solveFirstReq (options : SolveOptions) : Req :=
  { temperature := 25, maxTokens := 1700, timeoutMs := 30000, budget := 2,
    messages := buildUserMessage solveBasePrompt options }

/-- The corrective solve-stage request: temperature 0.1, max_tokens 1700,
25 s timeout, explicit retry budget 1. -/
def solveRepairReq (firstTry : String) : Req :=
  { temperature := 10, maxTokens := 1700, timeoutMs := 25000, budget := 1,
    messages := [{ role := "user", content := [.text (solveRepairPrompt firstTry)] }] }

/-- Finishing step of the HTML-producing call sites: strip code fences
and raise the site's empty-content failure when nothing is left. -/
def htmlFinish (msg : String) (s : String) : Except Err String :=
  let html := stripCodeFences s
  if html = "" || jsTrim html = "" then .error (.emptyContent msg) else .ok html

/-- `solveProblem` from src/unnamed/part_001: a first retried generation;
if the result looks like markdown, exactly one retried corrective call
whose result is returned without re-running the check. The second
component lists the logical requests issued, in order. -/
def solveProblem (env : Env) (options : SolveOptions) : Except Err String × List Req :=
  match runReq env (solveFirstReq options) (htmlFinish "深度解析返回为空（content 为空）。") with
  | .error e => (.error e, [solveFirstReq options])
  | .ok firstTry =>
    if looksLikeMarkdown firstTry then
      (runReq env (solveRepairReq firstTry) (htmlFinish "深度解析纠偏后仍为空（content 为空）。"),
       [solveFirstReq options, solveRepairReq firstTry])
    else (.ok firstTry, [solveFirstReq options])

/-- Drills-stage batch instruction (`prompt3`), embedding the batch
index, the original problem and the compressed context. -/
def drillPrompt (batch : Nat) (originalProblem shortCtx : String) : String :=
  "你是一位小学英语语法老师，面向五六年级。\n围绕“原题”生成【3道同型变式训练】并给出答案解析（本批次：第" ++ toString batch ++
  "批，共2批）。\n必须输出【纯 HTML 片段】，严禁 Markdown（**、#、-、```、~~~ 都不许出现）。\n结构要求：\n- 每题用 <div class=\"drill-item\"> 包裹\n- 题干放 <div class=\"drill-question\">\n- 答案解析放 <div class=\"drill-answer\"><details>...</details></div>\n- 每题给 4 个选项（A/B/C/D），题型尽量贴近原题\n- 解析语气不要幼稚，用“规则→依据→易错点”表达\n原题：\n" ++ originalProblem ++ "\n\n参考要点（已压缩）：\n" ++ shortCtx

/-- Drills-stage corrective instruction (`fixPrompt`). -/
def drillFixPrompt (firstTry : String) : String :=
  "你的输出含 Markdown 痕迹。请改写成【纯 HTML 片段】并保持结构：\n- 严禁 **、#、-、```、~~~ 等\n- 只输出 HTML\n【待改写内容】：\n" ++ firstTry

/-- The primary generation request of one drills batch: temperature
0.55, max_tokens 1500, 35 s timeout, retry budget 3. -/
def drillGenReq (batch : Nat) (originalProblem shortCtx : String) : Req :=
  { temperature := 55, maxTokens := 1500, timeoutMs := 35000, budget := 3,
    messages := [{ role := "user", content := [.text (drillPrompt batch originalProblem shortCtx)] }] }

/-- The corrective request of one drills batch: temperature 0.1,
max_tokens 1500, 25 s timeout, retry budget 2. -/
def drillFixReq (batch : Nat) (firstTry : String) : Req :=
  { temperature := 10, maxTokens := 1500, timeoutMs := 25000, budget := 2,
    messages := [{ role := "user", content := [.text (drillFixPrompt firstTry)] }] }

/-- `callBatch` from src/unnamed/part_001 `generateDrills`: the full
generate → validate → repair sequence of one batch, with its issued
requests in order. -/
def callBatch (env : Env) (batch : Nat) (originalProblem shortCtx : String) :
    Except Err String × List Req :=
  match runReq env (drillGenReq batch originalProblem shortCtx)
      (htmlFinish ("变式训练第" ++ toString batch ++ "批返回为空（content 为空）。")) with
  | .error e => (.error e, [drillGenReq batch originalProblem shortCtx])
  | .ok firstTry =>
    if looksLikeMarkdown firstTry then
      (runReq env (drillFixReq batch firstTry)
        (htmlFinish ("变式训练第" ++ toString batch ++ "批纠偏后仍为空（content 为空）。")),
       [drillGenReq batch originalProblem shortCtx, drillFixReq batch firstTry])
    else (.ok firstTry, [drillGenReq batch originalProblem shortCtx])

/-- `generateDrills` from src/unnamed/part_001: batch 1 runs to
completion (including any repair round); only then is batch 2 issued;
the final text is batch 1's text, a newline, and batch 2's text. The
second component lists every logical request issued, in order. -/
def generateDrills (env : Env) (originalProblem solutionContextHtml : String) :
    Except Err String × List Req :=
  let shortCtx := summarizeContextForDrills solutionContextHtml
  match callBatch env 1 originalProblem shortCtx with
  | (.error e, t1) => (.error e, t1)
  | (.ok part1, t1) =>
    match callBatch env 2 originalProblem shortCtx with
    | (.error e, t2) => (.error e, t1 ++ t2)
    | (.ok part2, t2) => (.ok (part1 ++ "\n" ++ part2), t1 ++ t2)

/-- The plain text the speech stage derives from the solution HTML:
tags stripped, whitespace collapsed, trimmed, capped at 1200 characters
(`slice(0, 1200)`). -/
def ttsText (solutionHtml : String) : String :=
  String.mk (List.take 1200 (jsTrimL (collapseWsL (stripTagsL solutionHtml.data))))

/-- The `input` field of the speech-synthesis payload. -/
def ttsInput (solutionHtml : String) : String :=
  "我来讲解：" ++ ttsText solutionHtml

/-- The failure message of a reply without `audio_base64`. -/
def speechMissingMsg : String :=
  "TTS 返回不包含 audio_base64（你的中转可能不支持 /audio/speech）。"

/-- `generateSpeech` from src/unnamed/part_001: one call to the speech
endpoint with the derived text; the reply's `audio_base64` field is
returned when truthy, otherwise a distinct failure is raised
(`if (!b64) throw`). `resp` is the outcome of the transport call; the
second component is the `input` field actually sent to the endpoint. -/
def generateSpeech (resp : Except Err Json) (solutionHtml : String) :
    Except Err Json × String :=
  (match resp with
   | .error e => .error e
   | .ok j =>
     match getField j "audio_base64" with
     | none => .error (.emptyContent speechMissingMsg)
     | some v => if jsTruthy v then .ok v else .error (.emptyContent speechMissingMsg),
   ttsInput solutionHtml)

/-- Decidable equality of pipeline outcomes. -/
instance instDecEqExcept {ε α : Type} [DecidableEq ε] [DecidableEq α] :
    DecidableEq (Except ε α) := fun x y =>
  match x, y with
  | .ok a, .ok b =>
    match decEq a b with
    | isTrue h => isTrue (h ▸ rfl)
    | isFalse h => isFalse (fun hh => h (Except.ok.inj hh))
  | .error a, .error b =>
    match decEq a b with
    | isTrue h => isTrue (h ▸ rfl)
    | isFalse h => isFalse (fun hh => h (Except.error.inj hh))
  | .ok _, .error _ => isFalse (fun hh => Except.noConfusion hh)
  | .error _, .ok _ => isFalse (fun hh => Except.noConfusion hh)

/-- The ordered content-part sequence the Message Builder produces: the
instruction text, then an image part when the image is present with
non-empty payload and MIME type, then a labelled supplementary-text part
when the text is present and non-blank. -/
def specParts (prompt : String) (options : SolveOptions) : List ContentPart :=
  [ContentPart.text prompt] ++
  (match options.image with
   | some img =>
     if img.base64 ≠ "" ∧ img.mimeType ≠ "" then
       [ContentPart.imageUrl (toDataUrl img.base64 img.mimeType)]
     else []
   | none => []) ++
  (match options.text with
   | some t =>
     if jsTrim t ≠ "" then [ContentPart.text ("\n\n【题目文本】\n" ++ jsTrim t)] else []
   | none => [])

/-- A concrete options value for exercising the stages. -/
def optW : SolveOptions :=
  { image := none, text := some "q" }

/-- An environment whose first solve call yields markdown-tainted
content and whose other calls yield a clean fragment. -/
def solveEnvW : Env := fun req _ =>
  if req = solveFirstReq optW then .ok (chatJson "**bold**") else .ok (chatJson "<div>ok</div>")

/-- An environment whose verify replies are empty twice and then carry
padded text. -/
def verifyEnvW : Env := fun _ i =>
  if i ≤ 1 then .ok (chatJson "") else .ok (chatJson "  fixed problem  ")

/-- An environment answering batch 1's drills request with one fragment
and everything else with another. -/
def drillEnvC : Env := fun req _ =>
  if req = drillGenReq 1 "q" (summarizeContextForDrills "") then .ok (chatJson "<div>a</div>")
  else .ok (chatJson "<div>b</div>")

/-- Number of leading backticks. -/
def leadTicks : List Char → Nat
  | c :: rest => if c = '\x60' then leadTicks rest + 1 else 0
  | [] => 0

/-! ## Theorems: retry executor -/

/-- Unfolding step of `retryFrom`. -/
theorem retryFrom_succ {α : Type} (op : Nat → Except Err α) (i fuel : Nat) :
    retryFrom op i (fuel + 1) =
      match op i with
      | .ok a => .ok a
      | .error _ => retryFrom op (i + 1) fuel := rfl

/-- Base case of `retryFrom`. -/
theorem retryFrom_zero {α : Type} (op : Nat → Except Err α) (i : Nat) :
    retryFrom op i 0 = op i := rfl

/-- If attempts below `k` fail and attempt `k` succeeds, a window of
attempts that reaches `k` returns the success. -/
theorem retryFrom_reaches_success {α : Type} (op : Nat → Except Err α) (k : Nat) (v : α)
    (e : Nat → Err) (hfail : ∀ i, i < k → op i = .error (e i)) (hsucc : op k = .ok v) :
    ∀ fuel j, j ≤ k → k ≤ j + fuel → retryFrom op j fuel = .ok v := by
  intro fuel
  induction fuel with
  | zero =>
    intro j hjk hkj
    have : j = k := by omega
    subst this
    simpa [retryFrom_zero] using hsucc
  | succ n ih =>
    intro j hjk hkj
    rcases Nat.lt_or_ge j k with hlt | hge
    · rw [retryFrom_succ, hfail j hlt]
      exact ih (j + 1) hlt (by omega)
    · have : j = k := by omega
      subst this
      rw [retryFrom_succ, hsucc]

/-- If every attempt of the window fails, the window rethrows the error
of its last attempt unchanged. -/
theorem retryFrom_exhausts {α : Type} (op : Nat → Except Err α) (e : Nat → Err) :
    ∀ fuel j, (∀ i, i ≤ j + fuel → op i = .error (e i)) →
      retryFrom op j fuel = .error (e (j + fuel)) := by
  intro fuel
  induction fuel with
  | zero =>
    intro j hfail
    simpa [retryFrom_zero] using hfail j (by omega)
  | succ n ih =>
    intro j hfail
    rw [retryFrom_succ, hfail j (by omega)]
    have := ih (j + 1) (fun i hi => hfail i (by omega))
    simpa [show j + 1 + n = j + (n + 1) by omega] using this

/-- C1: an operation that fails on its first `k` invocations and
succeeds on invocation `k+1` makes `withRetry`/`callWithRetry` with
budget `m ≥ k` return the success value; with budget `m < k` the
executor rethrows exactly the failure observed on its last attempt
(attempt index `m`), unchanged and unwrapped. -/
theorem withRetry_fails_k_then_succeeds {α : Type} (op : Nat → Except Err α) (k : Nat)
    (v : α) (e : Nat → Err)
    (hfail : ∀ i, i < k → op i = .error (e i)) (hsucc : op k = .ok v) :
    (∀ m, k ≤ m → withRetry op m = .ok v) ∧
    (∀ m, m < k → withRetry op m = .error (e m)) := by
  constructor
  · intro m hm
    exact retryFrom_reaches_success op k v e hfail hsucc m 0 (Nat.zero_le k) (by omega)
  · intro m hm
    have := retryFrom_exhausts op e m 0 (fun i hi => hfail i (by omega))
    simpa using this

/-- Concrete run of the retry theorem: two timeouts then a success;
budget 2 reaches the success, budget 1 rethrows the second timeout. -/
theorem withRetry_fails_k_then_succeeds_witness :
    withRetry (fun i => if i < 2 then .error (.timeout i) else .ok "done") 2 = .ok "done" ∧
    withRetry (fun i => if i < 2 then .error (.timeout i) else .ok "done") 1 =
      .error (.timeout 1) := by
  have h := withRetry_fails_k_then_succeeds
    (fun i => if i < 2 then .error (.timeout i) else .ok "done") 2 "done"
    (fun i => .timeout i)
    (fun i hi => by simp [hi]) (by simp)
  exact ⟨h.1 2 (by omega), h.2 1 (by omega)⟩

/-- C9: both backoff schedules have the shape `min(capMs, baseMs * 2^i)`
with fixed constants (4000/600 in `withRetry`, 8000/500 in
`callWithRetry`); each is non-decreasing in the attempt index and never
exceeds its cap. -/
theorem backoff_delay_shape :
    (∀ i, retryDelayMs i = min 4000 (600 * 2 ^ i)) ∧
    (∀ i j, i ≤ j → retryDelayMs i ≤ retryDelayMs j) ∧
    (∀ i, retryDelayMs i ≤ 4000) ∧
    (∀ i, callRetryDelayMs i = min 8000 (500 * 2 ^ i)) ∧
    (∀ i j, i ≤ j → callRetryDelayMs i ≤ callRetryDelayMs j) ∧
    (∀ i, callRetryDelayMs i ≤ 8000) := by
  refine ⟨fun _ => rfl, ?_, fun i => Nat.min_le_left _ _, fun _ => rfl, ?_,
    fun i => Nat.min_le_left _ _⟩
  · intro i j hij
    exact min_le_min (Nat.le_refl _)
      (Nat.mul_le_mul_left 600 (Nat.pow_le_pow_right (by omega) hij))
  · intro i j hij
    exact min_le_min (Nat.le_refl _)
      (Nat.mul_le_mul_left 500 (Nat.pow_le_pow_right (by omega) hij))

/-- Concrete instances of the backoff theorem: the monotonicity
conclusions applied at attempts 2 and 3. -/
theorem backoff_delay_shape_witness :
    retryDelayMs 2 ≤ retryDelayMs 3 ∧ callRetryDelayMs 2 ≤ callRetryDelayMs 3 :=
  ⟨backoff_delay_shape.2.1 2 3 (by omega), backoff_delay_shape.2.2.2.2.1 2 3 (by omega)⟩

/-! ## Theorems: markdown detection -/

/-- C5: `looksLikeMarkdown` is true for every input containing a
triple-backtick fence, true on the ATX heading `"# Title"`, the bold
span `"**x**"` and the leading bullet `"- item"`, and false on the clean
fragment `"<div>...</div>"`. -/
theorem looksLikeMarkdown_markers :
    (∀ s : String, hasSub ['\x60', '\x60', '\x60'] s.data = true → looksLikeMarkdown s = true) ∧
    looksLikeMarkdown "# Title" = true ∧
    looksLikeMarkdown "**x**" = true ∧
    looksLikeMarkdown "- item" = true ∧
    looksLikeMarkdown "<div>...</div>" = false := by
  refine ⟨?_, by decide, by decide, by decide, by decide⟩
  intro s h
  unfold looksLikeMarkdown
  rw [h]
  rfl

/-- The fence clause of the markdown theorem applied to a concrete
fenced input. -/
theorem looksLikeMarkdown_markers_witness :
    hasSub ['\x60', '\x60', '\x60'] "a ``` b".data = true ∧
    looksLikeMarkdown "a ``` b" = true :=
  ⟨by decide, looksLikeMarkdown_markers.1 "a ``` b" (by decide)⟩

/-! ## Theorems: content extraction -/

/-- C10: content extraction is total with an empty-string default — any
JSON reply on which the optional chain `choices[0].message.content`
misses a link (null reply, non-object, missing or empty `choices`,
missing `message` or `content`) yields `""` rather than a failure, and
every result is either the default `""` or the value found by the
chain. -/
theorem pickContent_total_default :
    (∀ j : Json, pickChain j = none → pickContent j = .str "") ∧
    (∀ j : Json, pickChain j = some .null → pickContent j = .str "") ∧
    (∀ j : Json, pickContent j = .str "" ∨ ∃ v, pickChain j = some v ∧ pickContent j = v) ∧
    pickContent .null = .str "" ∧
    pickContent (.num 7) = .str "" ∧
    pickContent (.str "not an object") = .str "" ∧
    pickContent (.arr []) = .str "" ∧
    pickContent (.obj []) = .str "" ∧
    pickContent (.obj [("choices", .arr [])]) = .str "" ∧
    pickContent (.obj [("choices", .arr [.obj []])]) = .str "" ∧
    pickContent (.obj [("choices", .arr [.obj [("message", .obj [])]])]) = .str "" ∧
    pickContent (.obj [("choices", .arr [.obj [("message", .obj [("content", .null)])]])]) =
      .str "" ∧
    pickContent (chatJson "hi") = .str "hi" := by
  refine ⟨?_, ?_, ?_, rfl, rfl, rfl, rfl, rfl, rfl, rfl, rfl, rfl, rfl⟩
  · intro j h
    unfold pickContent
    rw [h]
  · intro j h
    unfold pickContent
    rw [h]
  · intro j
    unfold pickContent
    cases hc : pickChain j with
    | none => exact Or.inl rfl
    | some v =>
      cases v with
      | null => exact Or.inl rfl
      | bool b => exact Or.inr ⟨.bool b, rfl, rfl⟩
      | num n => exact Or.inr ⟨.num n, rfl, rfl⟩
      | str s => exact Or.inr ⟨.str s, rfl, rfl⟩
      | arr xs => exact Or.inr ⟨.arr xs, rfl, rfl⟩
      | obj fs => exact Or.inr ⟨.obj fs, rfl, rfl⟩

/-- The default clause of the extraction theorem applied to a reply that
is a bare boolean. -/
theorem pickContent_total_default_witness :
    pickChain (.bool true) = none ∧ pickContent (.bool true) = .str "" :=
  ⟨rfl, pickContent_total_default.1 (.bool true) rfl⟩

/-! ## Theorems: message builder -/

/-- C6 (amended): the builder always yields exactly one user message
whose content parts are, in order, the instruction text, an image part
when the image is present with non-empty base64 body and MIME type
(the data URI reassembled with any pre-existing data-URI prefix
stripped), and a labelled non-blank supplementary-text part; on the
spec's concrete example the image URL is exactly
`data:image/png;base64,AAAA`. -/
theorem buildUserMessage_spec :
    (∀ prompt options,
      buildUserMessage prompt options = [{ role := "user", content := specParts prompt options }]) ∧
    buildUserMessage "p"
        { image := some { base64 := "data:image/png;base64,AAAA", mimeType := "image/png" },
          text := none } =
      [{ role := "user",
         content := [.text "p", .imageUrl "data:image/png;base64,AAAA"] }] := by
  refine ⟨?_, by decide⟩
  intro prompt options
  rcases options with ⟨img, txt⟩
  rcases img with _ | i <;> rcases txt with _ | t <;>
    simp only [buildUserMessage, specParts] <;> (try split_ifs) <;> simp

/-- C6 counterexample: an options value whose image is present but has
an empty base64 payload produces no image part at all, so the built
message holds the instruction text only. -/
theorem buildUserMessage_image_presence_cex :
    ({ image := some { base64 := "", mimeType := "image/png" }, text := none } :
        SolveOptions).image.isSome = true ∧
    buildUserMessage "p" { image := some { base64 := "", mimeType := "image/png" }, text := none } =
      [{ role := "user", content := [.text "p"] }] :=
  ⟨rfl, by decide⟩

/-! ## Theorems: solve-stage repair protocol -/

/-- Evaluating `withRetry` with budget 2 attempt by attempt. -/
theorem withRetry_two {α : Type} (op : Nat → Except Err α) :
    withRetry op 2 =
      match op 0 with
      | .ok a => .ok a
      | .error _ =>
        match op 1 with
        | .ok a => .ok a
        | .error _ => op 2 := rfl

/-- An attempt whose transport call answers with a well-formed chat
reply reduces to the stage's finishing step on the content. -/
theorem reqAttempt_chat (env : Env) (req : Req) (finish : String → Except Err String)
    (i : Nat) (t : String) (h : env req i = .ok (chatJson t)) :
    reqAttempt env req finish i = finish t := by
  unfold reqAttempt
  rw [h]
  rfl

/-- C2: in the solve stage, once the first retried generation resolves
to a markdown-flagged text, the stage issues exactly one corrective
request — its trace is the first request followed by the single repair
request — whose sampling temperature (0.10) is strictly below the first
call's (0.25) and whose retry budget (1) is strictly below the first
call's (2); the stage's result is the repair call's result, returned
without re-running the markdown check on it. -/
theorem solve_repair_protocol (env : Env) (options : SolveOptions) (firstTry : String)
    (h1 : runReq env (solveFirstReq options) (htmlFinish "深度解析返回为空（content 为空）。") =
      .ok firstTry)
    (hm : looksLikeMarkdown firstTry = true) :
    solveProblem env options =
      (runReq env (solveRepairReq firstTry) (htmlFinish "深度解析纠偏后仍为空（content 为空）。"),
       [solveFirstReq options, solveRepairReq firstTry]) ∧
    (solveRepairReq firstTry).temperature < (solveFirstReq options).temperature ∧
    (solveRepairReq firstTry).budget < (solveFirstReq options).budget := by
  refine ⟨?_, ?_, ?_⟩
  · unfold solveProblem
    rw [h1]
    simp [hm]
  · show (10 : Nat) < 25
    omega
  · show (1 : Nat) < 2
    omega

set_option maxRecDepth 4000 in
/-- The repair-protocol theorem applied to a concrete run whose first
generation returns `**bold**`. -/
theorem solve_repair_protocol_witness :
    solveProblem solveEnvW optW =
      (runReq solveEnvW (solveRepairReq "**bold**")
        (htmlFinish "深度解析纠偏后仍为空（content 为空）。"),
       [solveFirstReq optW, solveRepairReq "**bold**"]) ∧
    (solveRepairReq "**bold**").temperature < (solveFirstReq optW).temperature ∧
    (solveRepairReq "**bold**").budget < (solveFirstReq optW).budget :=
  solve_repair_protocol solveEnvW optW "**bold**" (by decide) (by decide)

/-! ## Theorems: verify stage -/

/-- The verify finishing step on a non-blank content. -/
theorem verifyFinish_of_nonblank (s : String) (hs : jsTrim s ≠ "") :
    verifyFinish s = .ok (jsTrim s) := by
  unfold verifyFinish
  rw [if_neg hs]

/-- C7: with the verify stage's retry budget of 2 retries, an upstream
reply whose content is empty on the first two attempts and a non-blank
string on the third makes `verifyProblem` return the trimmed string;
empty content on every attempt is raised as the distinct empty-content
failure rather than returned. -/
theorem verify_empty_content_protocol :
    (∀ (env : Env) (options : SolveOptions) (s : String),
      env (verifyReq options) 0 = .ok (chatJson "") →
      env (verifyReq options) 1 = .ok (chatJson "") →
      env (verifyReq options) 2 = .ok (chatJson s) →
      jsTrim s ≠ "" →
      verifyProblem env options = .ok (jsTrim s)) ∧
    (∀ (env : Env) (options : SolveOptions),
      (∀ i, i ≤ 2 → env (verifyReq options) i = .ok (chatJson "")) →
      verifyProblem env options =
        .error (.emptyContent "题干核对返回为空（content 为空）。")) ∧
    (∀ options, 2 ≤ (verifyReq options).budget) := by
  refine ⟨?_, ?_, fun options => Nat.le_refl 2⟩
  · intro env options s h0 h1 h2 hs
    unfold verifyProblem runReq
    rw [show (verifyReq options).budget = 2 from rfl, withRetry_two,
      reqAttempt_chat env _ verifyFinish 0 "" h0,
      reqAttempt_chat env _ verifyFinish 1 "" h1,
      reqAttempt_chat env _ verifyFinish 2 s h2,
      show verifyFinish "" = .error (.emptyContent "题干核对返回为空（content 为空）。") from by decide,
      verifyFinish_of_nonblank s hs]
  · intro env options hall
    unfold verifyProblem runReq
    rw [show (verifyReq options).budget = 2 from rfl, withRetry_two,
      reqAttempt_chat env _ verifyFinish 0 "" (hall 0 (by omega)),
      reqAttempt_chat env _ verifyFinish 1 "" (hall 1 (by omega)),
      reqAttempt_chat env _ verifyFinish 2 "" (hall 2 (by omega)),
      show verifyFinish "" = .error (.emptyContent "题干核对返回为空（content 为空）。") from by decide]

/-- The verify scenario applied to a concrete run: two empty replies,
then `"  fixed problem  "`, giving the trimmed `"fixed problem"`. -/
theorem verify_empty_content_protocol_witness :
    verifyProblem verifyEnvW optW = .ok (jsTrim "  fixed problem  ") :=
  verify_empty_content_protocol.1 verifyEnvW optW "  fixed problem  "
    rfl rfl rfl (by decide)

/-! ## Theorems: drills batch orchestration -/

set_option maxRecDepth 100000 in
/-- C3 counterexample: a run whose two batches resolve to
`<div>a</div>` and `<div>b</div>` produces `"<div>a</div>\n<div>b</div>"`
— the two batch texts joined by a newline — which is not the plain
concatenation of the two batch texts. -/
theorem generateDrills_concat_cex :
    (callBatch drillEnvC 1 "q" (summarizeContextForDrills "")).1 = .ok "<div>a</div>" ∧
    (callBatch drillEnvC 2 "q" (summarizeContextForDrills "")).1 = .ok "<div>b</div>" ∧
    (generateDrills drillEnvC "q" "").1 = .ok "<div>a</div>\n<div>b</div>" ∧
    (generateDrills drillEnvC "q" "").1 ≠ .ok ("<div>a</div>" ++ "<div>b</div>") := by
  refine ⟨by decide, by decide, by decide, by decide⟩

/-- C3 (amended): the drills result is batch 1's final text, a newline
separator, and batch 2's final text, in that order; the issued requests
are exactly batch 1's requests followed by batch 2's requests, and when
batch 1 fails (its repair round included) no batch-2 request is issued
at all. -/
theorem generateDrills_sequential :
    (∀ (env : Env) (orig ctx p1 p2 : String) (t1 t2 : List Req),
      callBatch env 1 orig (summarizeContextForDrills ctx) = (.ok p1, t1) →
      callBatch env 2 orig (summarizeContextForDrills ctx) = (.ok p2, t2) →
      generateDrills env orig ctx = (.ok (p1 ++ "\n" ++ p2), t1 ++ t2)) ∧
    (∀ (env : Env) (orig ctx : String) (e : Err) (t1 : List Req),
      callBatch env 1 orig (summarizeContextForDrills ctx) = (.error e, t1) →
      generateDrills env orig ctx = (.error e, t1)) := by
  constructor
  · intro env orig ctx p1 p2 t1 t2 h1 h2
    unfold generateDrills
    simp only [h1, h2]
  · intro env orig ctx e t1 h1
    unfold generateDrills
    simp only [h1]

set_option maxRecDepth 100000 in
/-- The sequential-orchestration theorem applied to the concrete
two-batch run. -/
theorem generateDrills_sequential_witness :
    generateDrills drillEnvC "q" "" =
      (.ok "<div>a</div>\n<div>b</div>",
       [drillGenReq 1 "q" (summarizeContextForDrills ""),
        drillGenReq 2 "q" (summarizeContextForDrills "")]) :=
  generateDrills_sequential.1 drillEnvC "q" "" "<div>a</div>" "<div>b</div>"
    [drillGenReq 1 "q" (summarizeContextForDrills "")]
    [drillGenReq 2 "q" (summarizeContextForDrills "")]
    (by decide) (by decide)

/-! ## Theorems: speech stage -/

/-- The outcome of the speech stage on a successful transport reply. -/
theorem generateSpeech_fst (j : Json) (html : String) :
    (generateSpeech (.ok j) html).1 =
      match getField j "audio_base64" with
      | none => .error (.emptyContent speechMissingMsg)
      | some v =>
        if jsTruthy v then .ok v else .error (.emptyContent speechMissingMsg) := rfl

/-- C8: the speech stage sends exactly the tag-stripped,
whitespace-collapsed, trimmed and 1200-capped text (behind its fixed
spoken prefix) to the distinct synthesis endpoint, and its outcome is
the reply's `audio_base64` value, with a distinct failure — never a
success — when the reply lacks that field. -/
theorem generateSpeech_contract :
    (∀ (resp : Except Err Json) (html : String),
      (generateSpeech resp html).2 = "我来讲解：" ++ ttsText html) ∧
    (∀ html : String, (ttsText html).length ≤ 1200) ∧
    (∀ (j : Json) (html : String), getField j "audio_base64" = none →
      (generateSpeech (.ok j) html).1 = .error (.emptyContent speechMissingMsg)) ∧
    (∀ (resp : Except Err Json) (html : String) (v : Json),
      (generateSpeech resp html).1 = .ok v →
      ∃ j, resp = .ok j ∧ getField j "audio_base64" = some v) ∧
    speechEndpointPath ≠ chatEndpointPath := by
  refine ⟨fun resp html => rfl, ?_, ?_, ?_, by decide⟩
  · intro html
    show (List.take 1200 (jsTrimL (collapseWsL (stripTagsL html.data)))).length ≤ 1200
    rw [List.length_take]
    exact Nat.min_le_left _ _
  · intro j html h
    rw [generateSpeech_fst, h]
  · intro resp html v h
    cases resp with
    | error e => exact absurd h (by simp [generateSpeech])
    | ok j =>
      rw [generateSpeech_fst] at h
      refine ⟨j, rfl, ?_⟩
      cases hf : getField j "audio_base64" with
      | none => rw [hf] at h; simp at h
      | some w =>
        rw [hf] at h
        change (if jsTruthy w = true then Except.ok w
          else Except.error (Err.emptyContent speechMissingMsg)) = Except.ok v at h
        cases ht : jsTruthy w with
        | true =>
          rw [ht] at h
          simp at h
          subst h
          rfl
        | false => rw [ht] at h; simp at h

/-- The missing-field clause of the speech theorem applied to an empty
object reply. -/
theorem generateSpeech_contract_witness :
    (generateSpeech (.ok (.obj [])) "<p>hi</p>").1 =
      .error (.emptyContent speechMissingMsg) :=
  generateSpeech_contract.2.2.1 (.obj []) "<p>hi</p>" rfl

/-! ## Theorems: fence stripping (substring theory) -/

/-- Unfolding equation of `hasSub` on a cons cell. -/
theorem hasSub_cons (pat : List Char) (c : Char) (rest : List Char) :
    hasSub pat (c :: rest) = (leadsWith pat (c :: rest) || hasSub pat rest) := rfl

/-- `leadsWith` captures initial-segment decompositions. -/
theorem leadsWith_iff (pat l : List Char) :
    leadsWith pat l = true ↔ ∃ b, l = pat ++ b := by
  induction pat generalizing l with
  | nil => simp [leadsWith]
  | cons p ps ih =>
    cases l with
    | nil => simp [leadsWith]
    | cons c cs =>
      rw [show leadsWith (p :: ps) (c :: cs) = ((p = c : Bool) && leadsWith ps cs) from rfl]
      simp only [Bool.and_eq_true, decide_eq_true_eq, ih, List.cons_append, List.cons.injEq]
      constructor
      · rintro ⟨hpc, b, hb⟩
        exact ⟨b, hpc.symm, hb⟩
      · rintro ⟨b, hcp, hb⟩
        exact ⟨hcp.symm, b, hb⟩

/-- `hasSub` captures contiguous-occurrence decompositions. -/
theorem hasSub_iff (pat l : List Char) :
    hasSub pat l = true ↔ ∃ a b, l = a ++ pat ++ b := by
  induction l with
  | nil =>
    rw [show hasSub pat [] = leadsWith pat [] from rfl, leadsWith_iff]
    constructor
    · rintro ⟨b, hb⟩
      exact ⟨[], b, by simpa using hb⟩
    · rintro ⟨a, b, hab⟩
      rw [eq_comm, List.append_assoc, List.append_eq_nil] at hab
      rw [List.append_eq_nil] at hab
      exact ⟨[], by simp [hab.2.1, hab.2.2]⟩
  | cons c cs ih =>
    rw [hasSub_cons, Bool.or_eq_true, leadsWith_iff, ih]
    constructor
    · rintro (⟨b, hb⟩ | ⟨a, b, hab⟩)
      · exact ⟨[], b, by simpa using hb⟩
      · exact ⟨c :: a, b, by simp [hab]⟩
    · rintro ⟨a, b, hab⟩
      cases a with
      | nil => exact Or.inl ⟨b, by simpa using hab⟩
      | cons x a2 =>
        right
        rw [show (x :: a2) ++ pat ++ b = x :: (a2 ++ pat ++ b) from by simp] at hab
        rw [List.cons.injEq] at hab
        exact ⟨a2, b, hab.2⟩

/-- An occurrence survives prepending. -/
theorem hasSub_append_left (pat a l : List Char) (h : hasSub pat l = true) :
    hasSub pat (a ++ l) = true := by
  rw [hasSub_iff] at h ⊢
  obtain ⟨x, y, rfl⟩ := h
  exact ⟨a ++ x, y, by simp⟩

/-- Occurrence-freeness restricts to any suffix part. -/
theorem hasSub_false_of_append (pat a l : List Char) (h : hasSub pat (a ++ l) = false) :
    hasSub pat l = false := by
  cases hh : hasSub pat l with
  | false => rfl
  | true =>
    rw [hasSub_append_left pat a l hh] at h
    exact h

/-- Occurrence-freeness of a cons restricts to its tail. -/
theorem hasSub_tail_false (pat : List Char) (c : Char) (rest : List Char)
    (h : hasSub pat (c :: rest) = false) : hasSub pat rest = false := by
  have := hasSub_false_of_append pat [c] rest
  exact this h

/-- A cons realising the pattern at its head is an occurrence. -/
theorem hasSub_of_leadsWith (pat l : List Char) (h : leadsWith pat l = true) :
    hasSub pat l = true := by
  cases l with
  | nil => rw [show hasSub pat [] = leadsWith pat [] from rfl]; exact h
  | cons a as => rw [hasSub_cons, h]; rfl

/-- A triple of one character is a palindrome, so its occurrences are
stable under reversal. -/
theorem hasSub_triple_reverse (c : Char) (l : List Char) :
    hasSub [c, c, c] l.reverse = hasSub [c, c, c] l := by
  have key : ∀ m : List Char, hasSub [c, c, c] m = true → hasSub [c, c, c] m.reverse = true := by
    intro m hm
    rw [hasSub_iff] at hm ⊢
    obtain ⟨a, b, rfl⟩ := hm
    exact ⟨b.reverse, a.reverse, by simp⟩
  cases h : hasSub [c, c, c] l with
  | true => rw [key l h]
  | false =>
    cases hr : hasSub [c, c, c] l.reverse with
    | false => rfl
    | true =>
      have := key l.reverse hr
      rw [List.reverse_reverse] at this
      rw [this] at h
      exact h

/-- Occurrence-freeness is preserved by `dropWhile`. -/
theorem hasSub_false_dropWhile (pat : List Char) (p : Char → Bool) (l : List Char)
    (h : hasSub pat l = false) : hasSub pat (l.dropWhile p) = false := by
  refine hasSub_false_of_append pat (l.takeWhile p) (l.dropWhile p) ?_
  rw [List.takeWhile_append_dropWhile]
  exact h

/-- Triple-freeness is preserved by the JS trim. -/
theorem hasSub_triple_false_jsTrimL (c : Char) (l : List Char)
    (h : hasSub [c, c, c] l = false) : hasSub [c, c, c] (jsTrimL l) = false := by
  unfold jsTrimL
  rw [hasSub_triple_reverse]
  refine hasSub_false_dropWhile _ _ _ ?_
  rw [hasSub_triple_reverse]
  exact hasSub_false_dropWhile _ _ _ h

/-! ## Theorems: fence stripping (output characters come from the input) -/

/-- Elements survive `dropWhile` backwards. -/
theorem mem_of_mem_dropWhile (p : Char → Bool) (l : List Char) (x : Char)
    (h : x ∈ l.dropWhile p) : x ∈ l := by
  rw [← List.takeWhile_append_dropWhile p l]
  exact List.mem_append_right _ h

/-- The trim only drops characters. -/
theorem jsTrimL_subset (l : List Char) (x : Char) (h : x ∈ jsTrimL l) : x ∈ l := by
  unfold jsTrimL at h
  rw [List.mem_reverse] at h
  have h2 := mem_of_mem_dropWhile _ _ _ h
  rw [List.mem_reverse] at h2
  exact mem_of_mem_dropWhile _ _ _ h2

/-- The ```` ```html ```` pass only drops characters. -/
theorem tickHtmlGo_subset :
    ∀ (l : List Char) (pend : Nat) (skip : Bool) (x : Char),
      x ∈ tickHtmlGo l pend skip → x ∈ l := by
  intro l
  induction l with
  | nil => intro pend skip x hx; simp [tickHtmlGo] at hx
  | cons c rest ih =>
    intro pend skip x hx
    cases pend with
    | succ n =>
      rw [show tickHtmlGo (c :: rest) (n + 1) skip = tickHtmlGo rest n true from rfl] at hx
      exact List.mem_cons_of_mem c (ih n true x hx)
    | zero =>
      rw [show tickHtmlGo (c :: rest) 0 skip =
        (if tickHtmlAt (c :: rest) then tickHtmlGo rest 6 true
         else if skip && isJsWs c then tickHtmlGo rest 0 true
         else c :: tickHtmlGo rest 0 false) from rfl] at hx
      split_ifs at hx with h1 h2
      · exact List.mem_cons_of_mem c (ih 6 true x hx)
      · exact List.mem_cons_of_mem c (ih 0 true x hx)
      · rcases List.mem_cons.mp hx with h | h
        · exact h ▸ List.mem_cons_self c rest
        · exact List.mem_cons_of_mem c (ih 0 false x h)

/-- The bare-fence pass only drops characters. -/
theorem removeTicksGo_subset :
    ∀ (l : List Char) (pend : Nat) (x : Char), x ∈ removeTicksGo l pend → x ∈ l := by
  intro l
  induction l with
  | nil => intro pend x hx; simp [removeTicksGo] at hx
  | cons c rest ih =>
    intro pend x hx
    cases pend with
    | succ n =>
      rw [show removeTicksGo (c :: rest) (n + 1) = removeTicksGo rest n from rfl] at hx
      exact List.mem_cons_of_mem c (ih n x hx)
    | zero =>
      rw [show removeTicksGo (c :: rest) 0 =
        (if tick3At (c :: rest) then removeTicksGo rest 2
         else c :: removeTicksGo rest 0) from rfl] at hx
      split_ifs at hx with h1
      · exact List.mem_cons_of_mem c (ih 2 x hx)
      · rcases List.mem_cons.mp hx with h | h
        · exact h ▸ List.mem_cons_self c rest
        · exact List.mem_cons_of_mem c (ih 0 x h)

/-! ## Theorems: fence stripping (head-test shapes) -/

/-- A positive bare-fence head test pins the first three characters. -/
theorem tick3At_shape (l : List Char) (h : tick3At l = true) :
    ∃ r, l = '\x60' :: '\x60' :: '\x60' :: r := by
  unfold tick3At at h
  split at h
  · rename_i r
    exact ⟨r, rfl⟩
  · exact absurd h (by simp)

/-- A positive `~~~` head test pins the first three characters. -/
theorem tilde3At_shape (l : List Char) (h : tilde3At l = true) :
    ∃ r, l = '~' :: '~' :: '~' :: r := by
  unfold tilde3At at h
  split at h
  · rename_i r
    exact ⟨r, rfl⟩
  · exact absurd h (by simp)

/-- A positive ```` ```html ```` head test pins the first three
characters. -/
theorem tickHtmlAt_shape (l : List Char) (h : tickHtmlAt l = true) :
    ∃ r, l = '\x60' :: '\x60' :: '\x60' :: r := by
  unfold tickHtmlAt at h
  split at h
  · rename_i h1 t1 m1 k1 r1
    exact ⟨h1 :: t1 :: m1 :: k1 :: r1, rfl⟩
  · exact absurd h (by simp)

/-- A positive `~~~html` head test pins the first three characters. -/
theorem tildeHtmlAt_shape (l : List Char) (h : tildeHtmlAt l = true) :
    ∃ r, l = '~' :: '~' :: '~' :: r := by
  unfold tildeHtmlAt at h
  split at h
  · rename_i h1 t1 m1 k1 r1
    exact ⟨h1 :: t1 :: m1 :: k1 :: r1, rfl⟩
  · exact absurd h (by simp)

/-- A triple at the head of the list is an occurrence of the triple. -/
theorem hasSub_triple_of_head (c : Char) (r : List Char) :
    hasSub [c, c, c] (c :: c :: c :: r) = true := by
  refine hasSub_of_leadsWith _ _ ?_
  simp [leadsWith]

/-! ## Theorems: fence stripping (identity on clean inputs) -/

/-- The ```` ```html ```` pass leaves a triple-backtick-free list
unchanged. -/
theorem tickHtmlGo_id (l : List Char) (h : hasSub ['\x60', '\x60', '\x60'] l = false) :
    tickHtmlGo l 0 false = l := by
  induction l with
  | nil => rfl
  | cons c rest ih =>
    have hAt : tickHtmlAt (c :: rest) = false := by
      cases hA : tickHtmlAt (c :: rest) with
      | false => rfl
      | true =>
        obtain ⟨r, hr⟩ := tickHtmlAt_shape _ hA
        rw [hr, hasSub_triple_of_head] at h
        exact absurd h (by simp)
    rw [show tickHtmlGo (c :: rest) 0 false =
      (if tickHtmlAt (c :: rest) then tickHtmlGo rest 6 true
       else if false && isJsWs c then tickHtmlGo rest 0 true
       else c :: tickHtmlGo rest 0 false) from rfl, hAt]
    simp only [Bool.false_eq_true, if_false, Bool.false_and]
    rw [ih (hasSub_tail_false _ c rest h)]

/-- The bare-fence pass leaves a triple-backtick-free list unchanged. -/
theorem removeTicks_id (l : List Char) (h : hasSub ['\x60', '\x60', '\x60'] l = false) :
    removeTicks l = l := by
  unfold removeTicks
  induction l with
  | nil => rfl
  | cons c rest ih =>
    have hAt : tick3At (c :: rest) = false := by
      cases hA : tick3At (c :: rest) with
      | false => rfl
      | true =>
        obtain ⟨r, hr⟩ := tick3At_shape _ hA
        rw [hr, hasSub_triple_of_head] at h
        exact absurd h (by simp)
    rw [show removeTicksGo (c :: rest) 0 =
      (if tick3At (c :: rest) then removeTicksGo rest 2
       else c :: removeTicksGo rest 0) from rfl, hAt]
    simp only [Bool.false_eq_true, if_false]
    rw [ih (hasSub_tail_false _ c rest h)]

/-- The `~~~html` pass leaves a tilde-free list unchanged. -/
theorem tildeHtmlGo_id (l : List Char) (h : '~' ∉ l) :
    tildeHtmlGo l 0 false = l := by
  induction l with
  | nil => rfl
  | cons c rest ih =>
    have hAt : tildeHtmlAt (c :: rest) = false := by
      cases hA : tildeHtmlAt (c :: rest) with
      | false => rfl
      | true =>
        obtain ⟨r, hr⟩ := tildeHtmlAt_shape _ hA
        rw [hr] at h
        exact absurd (List.mem_cons_self '~' _) h
    rw [show tildeHtmlGo (c :: rest) 0 false =
      (if tildeHtmlAt (c :: rest) then tildeHtmlGo rest 6 true
       else if false && isJsWs c then tildeHtmlGo rest 0 true
       else c :: tildeHtmlGo rest 0 false) from rfl, hAt]
    simp only [Bool.false_eq_true, if_false, Bool.false_and]
    rw [ih (fun hm => h (List.mem_cons_of_mem c hm))]

/-- The bare-tilde pass leaves a tilde-free list unchanged. -/
theorem removeTildes_id (l : List Char) (h : '~' ∉ l) : removeTildes l = l := by
  unfold removeTildes
  induction l with
  | nil => rfl
  | cons c rest ih =>
    have hAt : tilde3At (c :: rest) = false := by
      cases hA : tilde3At (c :: rest) with
      | false => rfl
      | true =>
        obtain ⟨r, hr⟩ := tilde3At_shape _ hA
        rw [hr] at h
        exact absurd (List.mem_cons_self '~' _) h
    rw [show removeTildesGo (c :: rest) 0 =
      (if tilde3At (c :: rest) then removeTildesGo rest 2
       else c :: removeTildesGo rest 0) from rfl, hAt]
    simp only [Bool.false_eq_true, if_false]
    rw [ih (fun hm => h (List.mem_cons_of_mem c hm))]

/-! ## Theorems: fence stripping (the bare-fence pass leaves no triple) -/

/-- A double-backtick initial segment forces two leading backticks. -/
theorem leadsWith_two_leadTicks (X : List Char)
    (h : leadsWith ['\x60', '\x60'] X = true) : 2 ≤ leadTicks X := by
  rw [leadsWith_iff] at h
  obtain ⟨b, rfl⟩ := h
  simp [leadTicks]

/-- The bare-fence pass never outputs three consecutive backticks, and
its output never starts with more than two (nor more than the input
had). -/
theorem removeTicksGo_avoids_triple :
    ∀ l : List Char,
      hasSub ['\x60', '\x60', '\x60'] (removeTicksGo l 0) = false ∧
      leadTicks (removeTicksGo l 0) ≤ min 2 (leadTicks l) := by
  have main : ∀ (n : Nat) (l : List Char), l.length ≤ n →
      hasSub ['\x60', '\x60', '\x60'] (removeTicksGo l 0) = false ∧
      leadTicks (removeTicksGo l 0) ≤ min 2 (leadTicks l) := by
    intro n
    induction n with
    | zero =>
      intro l hl
      have : l = [] := List.eq_nil_of_length_eq_zero (Nat.le_zero.mp hl)
      subst this
      exact ⟨rfl, by simp [removeTicksGo, leadTicks]⟩
    | succ n ih =>
      intro l hl
      cases l with
      | nil => exact ⟨rfl, by simp [removeTicksGo, leadTicks]⟩
      | cons c rest =>
        cases hAt : tick3At (c :: rest) with
        | true =>
          obtain ⟨r, hr⟩ := tick3At_shape _ hAt
          rw [List.cons.injEq] at hr
          obtain ⟨hc, hrest⟩ := hr
          subst hc
          subst hrest
          have e1 : removeTicksGo ('\x60' :: '\x60' :: '\x60' :: r) 0 = removeTicksGo r 0 := by
            simp [removeTicksGo, tick3At]
          rw [e1]
          have hrl : r.length ≤ n := by
            simp only [List.length_cons] at hl
            omega
          obtain ⟨ih1, ih2⟩ := ih r hrl
          refine ⟨ih1, ?_⟩
          have e2 : leadTicks ('\x60' :: '\x60' :: '\x60' :: r) = leadTicks r + 3 := by
            simp [leadTicks]
          rw [e2]
          omega
        | false =>
          have e1 : removeTicksGo (c :: rest) 0 = c :: removeTicksGo rest 0 := by
            rw [show removeTicksGo (c :: rest) 0 =
              (if tick3At (c :: rest) then removeTicksGo rest 2
               else c :: removeTicksGo rest 0) from rfl, hAt]
            simp
          rw [e1]
          have hrl : rest.length ≤ n := by
            simp only [List.length_cons] at hl
            omega
          obtain ⟨ih1, ih2⟩ := ih rest hrl
          by_cases hc : c = '\x60'
          · subst hc
            have hlead : leadTicks rest ≤ 1 := by
              cases rest with
              | nil => simp [leadTicks]
              | cons d r2 =>
                by_cases hd : d = '\x60'
                · subst hd
                  cases r2 with
                  | nil => simp [leadTicks]
                  | cons e r3 =>
                    by_cases he : e = '\x60'
                    · subst he
                      rw [show tick3At ('\x60' :: '\x60' :: '\x60' :: r3) = true from rfl] at hAt
                      exact absurd hAt (by simp)
                    · simp [leadTicks, he]
                · simp [leadTicks, hd]
            constructor
            · rw [hasSub_cons, Bool.or_eq_false_iff]
              refine ⟨?_, ih1⟩
              cases hlw : leadsWith ['\x60', '\x60'] (removeTicksGo rest 0) with
              | false =>
                rw [show leadsWith ['\x60', '\x60', '\x60'] ('\x60' :: removeTicksGo rest 0) =
                  (('\x60' = '\x60' : Bool) && leadsWith ['\x60', '\x60'] (removeTicksGo rest 0))
                  from rfl, hlw]
                simp
              | true =>
                have h2 := leadsWith_two_leadTicks _ hlw
                omega
            · have e2 : leadTicks ('\x60' :: removeTicksGo rest 0) =
                  leadTicks (removeTicksGo rest 0) + 1 := by simp [leadTicks]
              have e3 : leadTicks ('\x60' :: rest) = leadTicks rest + 1 := by simp [leadTicks]
              rw [e2, e3]
              omega
          · constructor
            · rw [hasSub_cons, Bool.or_eq_false_iff]
              refine ⟨?_, ih1⟩
              rw [show leadsWith ['\x60', '\x60', '\x60'] (c :: removeTicksGo rest 0) =
                (('\x60' = c : Bool) && leadsWith ['\x60', '\x60'] (removeTicksGo rest 0))
                from rfl]
              have hcc : ('\x60' = c : Bool) = false := by
                simp only [decide_eq_false_iff_not]
                exact fun hh => hc hh.symm
              rw [hcc]
              simp
            · simp [leadTicks, hc]
  intro l
  exact main l.length l (Nat.le_refl _)

/-- The bare-fence pass never outputs three consecutive backticks. -/
theorem removeTicks_avoids_triple (l : List Char) :
    hasSub ['\x60', '\x60', '\x60'] (removeTicks l) = false :=
  (removeTicksGo_avoids_triple l).1

/-! ## Theorems: fence stripping (trim idempotence) -/

/-- The head surviving a `dropWhile` fails the predicate. -/
theorem head_dropWhile_false (p : Char → Bool) (l : List Char) (c : Char)
    (h : (l.dropWhile p).head? = some c) : p c = false := by
  induction l with
  | nil => simp [List.dropWhile] at h
  | cons a rest ih =>
    rw [List.dropWhile_cons] at h
    split_ifs at h with hpa
    · exact ih h
    · have hac : a = c := by simpa using h
      subst hac
      exact Bool.eq_false_iff.mpr hpa

/-- `dropWhile` is the identity when the head already fails the
predicate. -/
theorem dropWhile_eq_self_of_head (p : Char → Bool) (l : List Char)
    (h : ∀ c, l.head? = some c → p c = false) : l.dropWhile p = l := by
  cases l with
  | nil => rfl
  | cons a rest =>
    rw [List.dropWhile_cons, if_neg]
    simp [h a rfl]

/-- `dropWhile` is idempotent. -/
theorem dropWhile_idem (p : Char → Bool) (l : List Char) :
    (l.dropWhile p).dropWhile p = l.dropWhile p :=
  dropWhile_eq_self_of_head p _ (fun c h => head_dropWhile_false p l c h)

/-- The JS trim is idempotent. -/
theorem jsTrimL_idem (l : List Char) : jsTrimL (jsTrimL l) = jsTrimL l := by
  unfold jsTrimL
  by_cases hX : ((l.dropWhile isJsWs).reverse).dropWhile isJsWs = []
  · rw [hX]
    simp [List.dropWhile]
  · have hhead : ∃ c, (l.dropWhile isJsWs).head? = some c ∧ isJsWs c = false := by
      cases hm : l.dropWhile isJsWs with
      | nil =>
        exfalso
        apply hX
        rw [hm]
        simp [List.dropWhile]
      | cons a as =>
        refine ⟨a, rfl, ?_⟩
        exact head_dropWhile_false isJsWs l a (by rw [hm]; rfl)
    obtain ⟨c, hc1, hc2⟩ := hhead
    have hXlast : (((l.dropWhile isJsWs).reverse).dropWhile isJsWs).getLast? = some c := by
      have hdec := List.takeWhile_append_dropWhile isJsWs (l.dropWhile isJsWs).reverse
      calc (((l.dropWhile isJsWs).reverse).dropWhile isJsWs).getLast?
          = (((l.dropWhile isJsWs).reverse).takeWhile isJsWs ++
              ((l.dropWhile isJsWs).reverse).dropWhile isJsWs).getLast? :=
            (List.getLast?_append_of_ne_nil _ hX).symm
        _ = ((l.dropWhile isJsWs).reverse).getLast? := by rw [hdec]
        _ = (l.dropWhile isJsWs).head? := List.getLast?_reverse _
        _ = some c := hc1
    have hrevhead :
        ((((l.dropWhile isJsWs).reverse).dropWhile isJsWs).reverse).head? = some c := by
      rw [List.head?_reverse]
      exact hXlast
    have e1 : ((((l.dropWhile isJsWs).reverse).dropWhile isJsWs).reverse).dropWhile isJsWs =
        (((l.dropWhile isJsWs).reverse).dropWhile isJsWs).reverse := by
      refine dropWhile_eq_self_of_head _ _ ?_
      intro d hd
      rw [hrevhead] at hd
      have : c = d := by simpa using hd
      rw [← this]
      exact hc2
    rw [e1, List.reverse_reverse, dropWhile_idem]

/-! ## Theorems: C4 — stripCodeFences idempotence -/

/-- C4 counterexample: on `"``~~~`"` the tilde pass joins the backtick
runs into a bare fence, so a second application removes it — the two
applications differ. -/
theorem stripCodeFences_idem_cex :
    stripCodeFences "``~~~`" = "```" ∧
    stripCodeFences (stripCodeFences "``~~~`") = "" ∧
    stripCodeFences (stripCodeFences "``~~~`") ≠ stripCodeFences "``~~~`" :=
  ⟨by decide, by decide, by decide⟩

/-- C4 (amended): `stripCodeFences` is idempotent on every input that
contains no tilde — on such inputs the tilde passes are inert, the
backtick passes leave no fence for a second round, and the trim is
idempotent. -/
theorem stripCodeFences_idem_of_no_tilde (s : String) (h : '~' ∉ s.data) :
    stripCodeFences (stripCodeFences s) = stripCodeFences s := by
  unfold stripCodeFences
  have ht1 : '~' ∉ tickHtmlGo s.data 0 false :=
    fun hm => h (tickHtmlGo_subset _ _ _ _ hm)
  have ht2 : '~' ∉ removeTicks (tickHtmlGo s.data 0 false) :=
    fun hm => ht1 (removeTicksGo_subset _ _ _ hm)
  rw [tildeHtmlGo_id _ ht2, removeTildes_id _ ht2]
  have hdata : ∀ L : List Char,
      (String.mk L).data = L := fun L => rfl
  rw [hdata]
  have hu3 : hasSub ['\x60', '\x60', '\x60']
      (jsTrimL (removeTicks (tickHtmlGo s.data 0 false))) = false :=
    hasSub_triple_false_jsTrimL '\x60' _ (removeTicks_avoids_triple _)
  have hut : '~' ∉ jsTrimL (removeTicks (tickHtmlGo s.data 0 false)) :=
    fun hm => ht2 (jsTrimL_subset _ _ hm)
  rw [tickHtmlGo_id _ hu3, removeTicks_id _ hu3, tildeHtmlGo_id _ hut,
    removeTildes_id _ hut, jsTrimL_idem]

/-- The amended idempotence applied to a concrete tilde-free input
carrying both fence kinds the backtick passes handle. -/
theorem stripCodeFences_idem_of_no_tilde_witness :
    stripCodeFences (stripCodeFences "```html\n<div>x</div>\n``` ``") =
      stripCodeFences "```html\n<div>x</div>\n``` ``" :=
  stripCodeFences_idem_of_no_tilde "```html\n<div>x</div>\n``` ``" (by decide)
